import Mathlib

/-!
Verification development for the phishing-detection data pipeline
(OpenPhish feed watcher and Google Safe Browsing blacklist server).

The Python sources are shallowly embedded:
 - a pandas DataFrame of string-typed columns becomes a list of column
   names plus a list of rows, each row a list of string fields aligned
   with the column list;
 - fallible operations return Option or Except;
 - the HTTP interactions of the blacklist server are parameters: the
   remote response for each batch index is an oracle argument.
-/

/-- A feed snapshot: ordered column names plus rows of string fields,
each row aligned with the column list.  Mirrors a pandas DataFrame read
with dtype str, as produced by read_feed_csv_as_dataframe. -/
structure DataFrame where
  cols : List String
  rows : List (List String)
deriving DecidableEq, Repr

/-- Python str.strip: remove leading and trailing whitespace.  Written
over the character list so that it evaluates by kernel reduction. -/
def pyStrip (s : String) : String :=
  ⟨((s.data.dropWhile Char.isWhitespace).reverse.dropWhile Char.isWhitespace).reverse⟩

/-- Whitespace-trim every field of a row.  Mirrors the per-column
fillna plus astype str plus str.strip normalization applied by
get_new_entries. -/
def trimRow (r : List String) : List String := r.map pyStrip

/-- Reindex a row from source column order to target column order,
looking each target column name up in the source column list.  Mirrors
the pandas column selection act_df[cols]; the default value is never
used when every target column occurs in the source columns. -/
def projRow (srcCols tgtCols : List String) (r : List String) : List String :=
  tgtCols.map (fun c => r.getD (srcCols.indexOf c) "")

/-- Embedding of get_new_entries (pull-openphish-feed.py).  The columns
of prev_df are the join key; act_df is reindexed to them (pandas raises
KeyError, modelled as none, exactly when a previous column is missing
from the current snapshot).  Both sides are string-normalized, the
previous side is de-duplicated, and the anti-join keeps the current rows
that do not occur in the previous rows, in current order.  The
de-duplication of the previous side only matters for the pandas merge
multiplicity; membership is unchanged by it. -/
def get_new_entries (prev_df act_df : DataFrame) : Option DataFrame :=
  if ∀ c ∈ prev_df.cols, c ∈ act_df.cols then
    let cols := prev_df.cols
    let act_aligned := act_df.rows.map (projRow act_df.cols cols)
    let prev_aligned := prev_df.rows
    let act_n := act_aligned.map trimRow
    let prev_n := prev_aligned.map trimRow
    some ⟨cols, act_n.filter (fun r => !((prev_n.dedup).contains r))⟩
  else
    none

/-- Embedding of chunks (blacklist-server.py): split a sequence into
consecutive blocks of at most size elements.  With size zero the Python
generator yields nothing because islice returns an empty batch at once;
otherwise it repeatedly takes the next size elements until the sequence
is exhausted. -/
def chunks (seq : List α) (size : Nat) : List (List α) :=
  if size = 0 then []
  else if seq.isEmpty then []
  else seq.take size :: chunks (seq.drop size) size
termination_by seq.length
decreasing_by
  rename_i hsz hne
  have hnil : seq ≠ [] := by
    intro h
    rw [h] at hne
    simp at hne
  have hpos : 0 < seq.length := List.length_pos.mpr hnil
  simp only [List.length_drop]
  omega

/-- A match object of the threat-matching response: the optional url
referenced under its threat field, plus the rest of the object kept
opaque as its serialized form (json.dumps of the object). -/
structure GsbMatch where
  threatUrl : Option String
  payload : String
deriving DecidableEq, Repr

/-- One output row of request_gsb_api: the queried url, the first match
object found for it (none when unmatched, rendered as the empty object),
its serialized form, the batch submission time, and the binary label
(0 matched, 1 unmatched). -/
structure MatchResult where
  request_url : String
  match_obj : Option GsbMatch
  match_json_obj : String
  request_time : String
  label : Nat
deriving DecidableEq, Repr

instance : Inhabited MatchResult := ⟨⟨"", none, "{}", "", 1⟩⟩

/-- The per-url result built by the inner loop of request_gsb_api: the
matches of the response are grouped by the url under their threat field
in response-array order, and the first entry of the group is taken; an
url with no group gets label 1 and the empty object. -/
def mk_match_result (ms : List GsbMatch) (t : String) (u : String) :
    MatchResult :=
  match ms.find? (fun m => m.threatUrl == some u) with
  | some m => ⟨u, some m, m.payload, t, 0⟩
  | none => ⟨u, none, "{}", t, 1⟩

/-- The body of the batch loop of request_gsb_api: one labeled output
row per url occurrence of the batch, all stamped with the same batch
request time. -/
def process_batch (batch : List String) (ms : List GsbMatch)
    (t : String) : List MatchResult :=
  batch.map (mk_match_result ms t)

/-- Outcome of one requests.post call to the threat-matching endpoint:
failure models a raised network error or timeout; success carries the
HTTP status code and the parsed JSON body, none when the body is not
JSON (r.json() raises), some with the list under the matches key (the
empty list when the key is absent or null). -/
inductive HttpResponse where
  | failure
  | success (status : Nat) (jsonMatches : Option (List GsbMatch))
deriving DecidableEq, Repr

/-- The batch loop of request_gsb_api over the already partitioned
batches, consulting the response oracle at consecutive batch indices.
A raised exception (network failure or non-JSON body) propagates and
discards every row collected so far; the status code of a successful
response is never inspected by the source. -/
def run_batches (resp : Nat → HttpResponse) (time : Nat → String) :
    List (List String) → Nat → Except Unit (List MatchResult)
  | [], _ => .ok []
  | b :: bs, i =>
    match resp i with
    | .failure => .error ()
    | .success _status none => .error ()
    | .success _status (some ms) =>
      match run_batches resp time bs (i + 1) with
      | .error e => .error e
      | .ok rest => .ok (process_batch b ms (time i) ++ rest)

/-- A response on which the source raises: a network failure (the post
call raises) or a body that is not JSON (r.json() raises).  An HTTP
error status with a JSON body is not of this kind: the source never
reads r.status_code. -/
def raisesOn (r : HttpResponse) : Prop :=
  r = .failure ∨ ∃ st, r = .success st none

/-- The fixed column list of the DataFrame returned by
request_gsb_api. -/
def gsb_result_cols : List String :=
  ["request_url", "match_obj", "match_json_obj", "request_time", "label"]

/-- The result table of request_gsb_api: the fixed columns plus one row
per queried url. -/
structure GsbResultDF where
  cols : List String
  rows : List MatchResult
deriving DecidableEq, Repr

/-- Embedding of request_gsb_api (blacklist-server.py): partition the
url list into batches of at most 500, run every batch against the
response oracle, and return the rows as a DataFrame with the fixed
columns; an exception in any batch propagates to the caller. -/
def request_gsb_api (url_list : List String) (resp : Nat → HttpResponse)
    (time : Nat → String) : Except Unit GsbResultDF :=
  match run_batches resp time (chunks url_list 500) 0 with
  | .error e => .error e
  | .ok rows => .ok ⟨gsb_result_cols, rows⟩

/-- The request body sent for one batch (client identity and threat
configuration are fixed module constants in the source). -/
structure GsbRequestBody where
  clientId : String
  clientVersion : String
  threatTypes : List String
  platformTypes : List String
  threatEntryTypes : List String
  threatEntries : List String
deriving DecidableEq, Repr

/-- The list of remote request bodies issued by request_gsb_api: one
POST per batch. -/
def gsb_requests (url_list : List String) : List GsbRequestBody :=
  (chunks url_list 500).map (fun batch =>
    ⟨"Blacklist-Server", "1.0.0",
     ["MALWARE", "SOCIAL_ENGINEERING", "UNWANTED_SOFTWARE",
      "POTENTIALLY_HARMFUL_APPLICATION", "THREAT_TYPE_UNSPECIFIED"],
     ["ANY_PLATFORM"], ["URL"], batch⟩)

/-- One row of the request DataFrame of the ingest endpoint: origin
metadata of a discovered url. -/
structure UrlRecord where
  url : String
  discover_time : String
  pulled_time : String
deriving DecidableEq, Repr

/-- One reconciled output row of write_analyzed_urls_to_csv, in the
fixed output column order url, match_json_obj, discover_time,
pulled_time, request_time, label. -/
structure LedgerRow where
  url : String
  match_json_obj : String
  discover_time : String
  pulled_time : String
  request_time : String
  label : Nat
deriving DecidableEq, Repr

/-- Embedding of the merge step of write_analyzed_urls_to_csv
(blacklist-server.py): the response rows are the left side of a pandas
left join on the whitespace-trimmed url, so every response row is kept
(duplicated once per matching request row, in request order) and a
response row without a matching request row keeps its place with the
origin fields filled as empty strings by fillna.  Request rows without
a matching response row contribute nothing. -/
def write_analyzed_urls_to_csv (df_request : List UrlRecord)
    (df_response : List MatchResult) : List LedgerRow :=
  df_response.flatMap (fun r =>
    match df_request.filter (fun q => pyStrip q.url == pyStrip r.request_url) with
    | [] => [⟨pyStrip r.request_url, r.match_json_obj, "", "",
              r.request_time, r.label⟩]
    | qs => qs.map (fun q =>
        ⟨pyStrip r.request_url, r.match_json_obj, q.discover_time,
         q.pulled_time, r.request_time, r.label⟩))

/-- One line of the durable CSV store: either the single column header
or a data row. -/
inductive CsvLine where
  | header (cols : List String)
  | data (fields : List String)
deriving DecidableEq, Repr

/-- The durable CSV store: none when the file does not exist, otherwise
its lines.  A present file of size zero is the empty line list. -/
abbrev CsvStore := Option (List CsvLine)

/-- Embedding of the shared ledger-append mechanics of
write_analyzed_urls_to_csv and write_new_entries: the header is written
exactly when the file does not exist or has size zero, and the rows are
appended after the existing content (to_csv with mode append). -/
def append_csv (store : CsvStore) (cols : List String)
    (rows : List (List String)) : CsvStore :=
  let lines := store.getD []
  let write_header := store.isNone || lines.isEmpty
  some (lines ++ (if write_header then [CsvLine.header cols] else [])
          ++ rows.map CsvLine.data)

/-- Number of header lines of a store. -/
def headerCount (store : CsvStore) : Nat :=
  (store.getD []).countP (fun l => match l with
    | .header _ => true
    | .data _ => false)

/-- The environment one iteration of the poll loop of
pull-openphish-feed.py runs against: whether the git pull succeeds,
the feed snapshot read afterwards (none when feed.csv is missing),
whether writing the new entries to evaluation-feed.csv succeeds, and
whether the POST to the blacklist server succeeds (its outcome is
caught and only logged by the source). -/
structure CycleEnv where
  pullOk : Bool
  feed : Option DataFrame
  writeOk : Bool
  sendOk : Bool
deriving DecidableEq, Repr

/-- Outcome of one poll-loop iteration.  crash records the in-memory
previous snapshot at the moment an uncaught exception escapes the loop;
cont carries the previous snapshot held for the next iteration, the
diff result when a diff ran (none when the feed file was missing), and
whether the iteration reached the sleep call. -/
inductive CycleOut where
  | crash (memPrev : DataFrame)
  | cont (memPrev : DataFrame) (reported : Option DataFrame) (slept : Bool)
deriving DecidableEq, Repr

/-- The in-memory previous snapshot after the iteration (at the crash
point for a crashed iteration). -/
def CycleOut.mem : CycleOut → DataFrame
  | .crash p => p
  | .cont p _ _ => p

/-- Embedding of one iteration of the while loop of main
(pull-openphish-feed.py).  A failing git pull raises out of the loop
before anything else happens.  A missing feed file is only logged: the
iteration ends without diffing and without sleeping.  Otherwise the
snapshot is read, diffed against the previous one (a schema error
raises with the previous baseline unchanged), the baseline is advanced
to the current snapshot, and only then are the new entries written and
sent; a failing write raises after the baseline was advanced, while the
send outcome is caught and never alters control flow. -/
def cycle (prev_df : DataFrame) (env : CycleEnv) : CycleOut :=
  if env.pullOk = false then .crash prev_df
  else
    match env.feed with
    | none => .cont prev_df none false
    | some act_df =>
      match get_new_entries prev_df act_df with
      | none => .crash prev_df
      | some new_entries =>
        if new_entries.rows.isEmpty then .cont act_df (some new_entries) true
        else if env.writeOk = false then .crash act_df
        else .cont act_df (some new_entries) true

/-- The poll loop run over a list of cycle environments, stopping at
the first crash. -/
def runTrace (prev_df : DataFrame) : List CycleEnv → List CycleOut
  | [] => []
  | env :: envs =>
    match cycle prev_df env with
    | .crash p => [.crash p]
    | .cont nxt rep slept => .cont nxt rep slept :: runTrace nxt envs

/-! ## Helper lemmas -/

lemma not_contains_dedup_iff {l : List (List String)} {r : List String} :
    (!(l.dedup.contains r)) = true ↔ r ∉ l := by
  simp [List.mem_dedup]

lemma projRow_self (cols : List String) (r : List String) (hnd : cols.Nodup)
    (hlen : r.length = cols.length) : projRow cols cols r = r := by
  induction cols generalizing r with
  | nil =>
    have : r = [] := List.length_eq_zero.mp hlen
    simp [this, projRow]
  | cons c cs ih =>
    match r with
    | [] => simp at hlen
    | a :: as =>
      have hlen' : as.length = cs.length := by simpa using hlen
      have hc : c ∉ cs := (List.nodup_cons.mp hnd).1
      have hnd' : cs.Nodup := (List.nodup_cons.mp hnd).2
      simp only [projRow, List.map_cons]
      have hhead : (a :: as).getD (List.indexOf c (c :: cs)) "" = a := by
        simp [List.indexOf_cons]
      have hstep : ∀ x ∈ cs,
          (a :: as).getD (List.indexOf x (c :: cs)) "" =
            as.getD (List.indexOf x cs) "" := by
        intro x hx
        have hne : c ≠ x := fun h => hc (h ▸ hx)
        rw [List.indexOf_cons_ne _ hne]
        simp [List.getD]
      rw [hhead, List.map_congr_left hstep]
      have := ih as hnd' hlen'
      rw [projRow] at this
      rw [this]

/-- Evaluation of get_new_entries when the current snapshot has exactly
the columns of the previous one: the reindexing is the identity and the
result is the trimmed current rows filtered by non-membership in the
trimmed previous rows. -/
lemma get_new_entries_aligned (A B : DataFrame) (hc : B.cols = A.cols)
    (hnd : A.cols.Nodup) (hB : ∀ r ∈ B.rows, r.length = A.cols.length) :
    get_new_entries A B =
      some ⟨A.cols, (B.rows.map trimRow).filter
        (fun r => !(((A.rows.map trimRow).dedup).contains r))⟩ := by
  have hcond : ∀ c ∈ A.cols, c ∈ B.cols := fun c h => hc ▸ h
  have hproj : B.rows.map (projRow B.cols A.cols) = B.rows := by
    have : ∀ r ∈ B.rows, projRow B.cols A.cols r = r := by
      intro r hr
      rw [hc]
      exact projRow_self A.cols r hnd (hB r hr)
    rw [List.map_congr_left this]
    simp
  unfold get_new_entries
  rw [if_pos hcond]
  simp only [hproj]

/-! ## C1: Snapshot Differ algebraic properties -/

/-- C1 counterexample: the claim states that every row of Diff(A, B)
occurs in B.  With A empty and B holding the single row with field
" x ", the differ returns the trimmed row "x", which does not occur
verbatim among the rows of B. -/
theorem c1_counterexample :
    get_new_entries ⟨["url"], []⟩ ⟨["url"], [[" x "]]⟩ =
      some ⟨["url"], [["x"]]⟩
    ∧ ["x"] ∉ (DataFrame.mk ["url"] [[" x "]]).rows := by
  constructor
  · decide
  · decide

/-- C1 amended: for snapshots with identical column lists (the current
snapshot well formed over them), Diff(A, A) is empty; no row of
Diff(A, B) occurs, after whitespace-trimming every string field, in A;
every row of Diff(A, B) occurs in B after whitespace-trimming the rows
of B; and the output preserves the original row order of B (it is a
sublist of the trimmed rows of B). -/
theorem c1_amended_diff_properties (A B : DataFrame) (hc : B.cols = A.cols)
    (hnd : A.cols.Nodup) (hA : ∀ r ∈ A.rows, r.length = A.cols.length)
    (hB : ∀ r ∈ B.rows, r.length = A.cols.length) :
    get_new_entries A A = some ⟨A.cols, []⟩
    ∧ ∀ D, get_new_entries A B = some D →
        (∀ r ∈ D.rows, r ∉ A.rows.map trimRow)
        ∧ (∀ r ∈ D.rows, r ∈ B.rows.map trimRow)
        ∧ D.rows.Sublist (B.rows.map trimRow) := by
  constructor
  · rw [get_new_entries_aligned A A rfl hnd hA]
    have : (A.rows.map trimRow).filter
        (fun r => !(((A.rows.map trimRow).dedup).contains r)) = [] := by
      rw [List.filter_eq_nil_iff]
      intro r hr
      intro hcontra
      exact (not_contains_dedup_iff.mp hcontra) hr
    rw [this]
  · intro D hD
    rw [get_new_entries_aligned A B hc hnd hB] at hD
    have hrows : D.rows = (B.rows.map trimRow).filter
        (fun r => !(((A.rows.map trimRow).dedup).contains r)) := by
      rw [← Option.some_inj.mp hD]
    refine ⟨?_, ?_, ?_⟩
    · intro r hr
      rw [hrows] at hr
      exact not_contains_dedup_iff.mp (List.mem_filter.mp hr).2
    · intro r hr
      rw [hrows] at hr
      exact (List.mem_filter.mp hr).1
    · rw [hrows]
      exact List.filter_sublist _

/-- C1 witness: the amended theorem applied to the concrete snapshots
with rows a and a, b. -/
theorem c1_amended_diff_properties_witness :
    get_new_entries ⟨["url"], [["a"]]⟩ ⟨["url"], [["a"]]⟩ =
      some ⟨["url"], []⟩
    ∧ ["b"] ∉ (DataFrame.mk ["url"] [["a"]]).rows.map trimRow := by
  have h := c1_amended_diff_properties ⟨["url"], [["a"]]⟩
    ⟨["url"], [["a"], ["b"]]⟩ rfl (by decide) (by decide) (by decide)
  refine ⟨h.1, ?_⟩
  exact (h.2 ⟨["url"], [["b"]]⟩ (by decide)).1 ["b"] (by decide)

/-! ## C6: schema mismatch handling -/

/-- C6 counterexample: the claim states that an extra column present
only in the current snapshot is a hard error.  With previous columns
url and current columns url, extra, the differ succeeds and returns a
diff over the previous columns instead of failing. -/
theorem c6_counterexample :
    get_new_entries ⟨["url"], [["a"]]⟩ ⟨["url", "extra"], [["a", "x"]]⟩ =
      some ⟨["url"], []⟩ := by
  decide

/-- C6 amended: the differ fails exactly when some column of the
previous snapshot is missing from the current one; extra columns
present only in the current snapshot are silently dropped and the diff
is produced over the columns of the previous snapshot. -/
theorem c6_amended_schema (prev_df act_df : DataFrame) :
    ((∃ c ∈ prev_df.cols, c ∉ act_df.cols) →
      get_new_entries prev_df act_df = none)
    ∧ ((∀ c ∈ prev_df.cols, c ∈ act_df.cols) →
      ∃ D, get_new_entries prev_df act_df = some D ∧ D.cols = prev_df.cols) := by
  constructor
  · intro h
    unfold get_new_entries
    rw [if_neg]
    intro hall
    obtain ⟨c, hc, hnot⟩ := h
    exact hnot (hall c hc)
  · intro h
    unfold get_new_entries
    rw [if_pos h]
    exact ⟨_, rfl, rfl⟩

/-- C6 witness: the amended theorem applied to concrete snapshots, one
with a missing column and one with matching columns. -/
theorem c6_amended_schema_witness :
    get_new_entries ⟨["url"], [["a"]]⟩ ⟨["other"], [["a"]]⟩ = none := by
  exact (c6_amended_schema ⟨["url"], [["a"]]⟩ ⟨["other"], [["a"]]⟩).1
    ⟨"url", by decide, by decide⟩


/-! ## Chunk partition lemmas -/

lemma chunks_nil (size : Nat) : chunks ([] : List α) size = [] := by
  rw [chunks]
  simp

lemma chunks_cons (seq : List α) (size : Nat) (hs : size ≠ 0)
    (hn : seq ≠ []) :
    chunks seq size = seq.take size :: chunks (seq.drop size) size := by
  rw [chunks, if_neg hs, if_neg (by simpa using hn)]

lemma chunks_flatten (size : Nat) (hs : size ≠ 0) (seq : List α) :
    (chunks seq size).flatten = seq := by
  by_cases hn : seq = []
  · subst hn
    simp [chunks_nil]
  · rw [chunks_cons seq size hs hn]
    simp only [List.flatten_cons]
    rw [chunks_flatten size hs (seq.drop size)]
    exact List.take_append_drop size seq
termination_by seq.length
decreasing_by
  have hpos : 0 < seq.length := List.length_pos.mpr hn
  simp only [List.length_drop]
  omega

lemma chunks_batch_le (size : Nat) (hs : size ≠ 0) (seq : List α) :
    ∀ b ∈ chunks seq size, b.length ≤ size := by
  intro b hb
  by_cases hn : seq = []
  · subst hn
    rw [chunks_nil] at hb
    simp at hb
  · rw [chunks_cons seq size hs hn] at hb
    rcases List.mem_cons.mp hb with hb | hb
    · subst hb
      simp [List.length_take]
    · exact chunks_batch_le size hs (seq.drop size) b hb
termination_by seq.length
decreasing_by
  have hpos : 0 < seq.length := List.length_pos.mpr hn
  simp only [List.length_drop]
  omega

lemma chunks_count (size : Nat) (hs : size ≠ 0) (seq : List α) :
    (chunks seq size).length = (seq.length + size - 1) / size := by
  by_cases hn : seq = []
  · subst hn
    rw [chunks_nil]
    have h0 : (0 + size - 1) / size = 0 := Nat.div_eq_of_lt (by omega)
    simp only [List.length_nil]
    omega
  · rw [chunks_cons seq size hs hn]
    simp only [List.length_cons]
    rw [chunks_count size hs (seq.drop size)]
    simp only [List.length_drop]
    have hpos : 0 < seq.length := List.length_pos.mpr hn
    have hsz : 0 < size := Nat.pos_of_ne_zero hs
    by_cases hle : size ≤ seq.length
    · have h1 : seq.length - size + size - 1 = seq.length - 1 := by omega
      have h2 : seq.length + size - 1 = (seq.length - 1) + size := by omega
      rw [h1, h2, Nat.add_div_right _ hsz]
    · have h1 : seq.length - size = 0 := by omega
      have h2 : (0 + size - 1) / size = 0 := Nat.div_eq_of_lt (by omega)
      have h3 : seq.length + size - 1 = (seq.length - 1) + size := by omega
      have h4 : (seq.length - 1) / size = 0 := Nat.div_eq_of_lt (by omega)
      rw [h1, h2, h3, Nat.add_div_right _ hsz, h4]
termination_by seq.length
decreasing_by
  have hpos : 0 < seq.length := List.length_pos.mpr hn
  simp only [List.length_drop]
  omega

/-! ## C3: batch partition of the url list -/

/-- C3: partitioning a url list of length n into batches of size 500
yields exactly ceil(n / 500) batches (written (n + 500 - 1) / 500 in
natural division), each of length at most 500, whose in-order
concatenation reproduces the list. -/
theorem c3_chunks_partition (L : List String) :
    (chunks L 500).length = (L.length + 500 - 1) / 500
    ∧ (∀ b ∈ chunks L 500, b.length ≤ 500)
    ∧ (chunks L 500).flatten = L :=
  ⟨chunks_count 500 (by omega) L, chunks_batch_le 500 (by omega) L,
   chunks_flatten 500 (by omega) L⟩

/-- C3 witness: the theorem applied to a concrete three-element list,
whose single batch has length at most 500. -/
theorem c3_chunks_partition_witness :
    (chunks ["a", "b", "c"] 500).length = 1
    ∧ (["a", "b", "c"] : List String).length ≤ 500
    ∧ (chunks ["a", "b", "c"] 500).flatten = ["a", "b", "c"] := by
  have h := c3_chunks_partition ["a", "b", "c"]
  refine ⟨?_, h.2.1 ["a", "b", "c"] (by simp [chunks]), h.2.2⟩
  rw [h.1]
  norm_num

/-! ## C10: empty url list issues no request -/

/-- C10: for the empty url list the batch client partitions into zero
batches, issues no remote request at all (for any response oracle, even
an always-failing one, the call succeeds), and returns an empty result
table that still carries the fixed result columns. -/
theorem c10_empty_url_list (resp : Nat → HttpResponse)
    (time : Nat → String) :
    request_gsb_api [] resp time = .ok ⟨gsb_result_cols, []⟩
    ∧ gsb_requests [] = []
    ∧ chunks ([] : List String) 500 = [] := by
  refine ⟨?_, ?_, ?_⟩
  · simp [request_gsb_api, chunks_nil, run_batches]
  · simp [gsb_requests, chunks_nil]
  · exact chunks_nil 500

/-! ## C2: one MatchResult per submitted url -/

lemma find?_eq_some_decomp {α : Type} {p : α → Bool} {l : List α} {m : α}
    (h : l.find? p = some m) :
    p m = true ∧ ∃ l1 l2, l = l1 ++ m :: l2 ∧ ∀ x ∈ l1, p x = false := by
  induction l with
  | nil => simp [List.find?] at h
  | cons a l ih =>
    cases hpa : p a with
    | true =>
      rw [List.find?_cons_of_pos _ hpa] at h
      obtain rfl : a = m := Option.some_inj.mp h
      exact ⟨hpa, [], l, rfl, by simp⟩
    | false =>
      rw [List.find?_cons_of_neg _ (by simp [hpa])] at h
      obtain ⟨hp, l1, l2, rfl, hall⟩ := ih h
      refine ⟨hp, a :: l1, l2, rfl, ?_⟩
      intro x hx
      rcases List.mem_cons.mp hx with rfl | hx
      · exact hpa
      · exact hall x hx

lemma run_batches_ok_length (resp : Nat → HttpResponse)
    (time : Nat → String) :
    ∀ (bs : List (List String)) (i : Nat) (rows : List MatchResult),
      run_batches resp time bs i = .ok rows →
      rows.length = (bs.map List.length).sum := by
  intro bs
  induction bs with
  | nil =>
    intro i rows h
    simp only [run_batches] at h
    obtain rfl : ([] : List MatchResult) = rows := Except.ok.inj h
    simp
  | cons b bs ih =>
    intro i rows h
    simp only [run_batches] at h
    cases hr : resp i with
    | failure => rw [hr] at h; exact absurd h (by simp)
    | success st body =>
      cases body with
      | none => rw [hr] at h; exact absurd h (by simp)
      | some ms =>
        rw [hr] at h
        cases hrec : run_batches resp time bs (i + 1) with
        | error e => rw [hrec] at h; exact absurd h (by simp)
        | ok rest =>
          rw [hrec] at h
          obtain rfl := (Except.ok.inj h).symm
          simp only [List.length_append, List.map_cons, List.sum_cons,
            process_batch, List.length_map]
          rw [ih (i + 1) rest hrec]

/-- C2: whenever request_gsb_api returns a result table, it holds
exactly one row per url occurrence submitted, whatever the responses
contained; each row of a batch is the labeled result of its url: the
row carries the url and the shared batch request time, and either the
response holds at least one match referencing the url — then the label
is 0 and the payload is the first such match in response-array order —
or no match references it and the label is 1 with the empty object. -/
theorem c2_one_result_per_url :
    (∀ (url_list : List String) (resp : Nat → HttpResponse)
       (time : Nat → String) (out : GsbResultDF),
       request_gsb_api url_list resp time = .ok out →
       out.rows.length = url_list.length)
    ∧ (∀ (batch : List String) (ms : List GsbMatch) (t : String) (i : Nat),
       i < batch.length →
       (process_batch batch ms t).getD i default =
         mk_match_result ms t (batch.getD i ""))
    ∧ (∀ (ms : List GsbMatch) (t : String) (u : String),
       (mk_match_result ms t u).request_url = u
       ∧ (mk_match_result ms t u).request_time = t
       ∧ ((∃ m ∈ ms, m.threatUrl = some u) →
           (mk_match_result ms t u).label = 0
           ∧ ∃ m l1 l2, (mk_match_result ms t u).match_obj = some m
               ∧ ms = l1 ++ m :: l2 ∧ m.threatUrl = some u
               ∧ ∀ m2 ∈ l1, m2.threatUrl ≠ some u)
       ∧ ((∀ m ∈ ms, m.threatUrl ≠ some u) →
           (mk_match_result ms t u).label = 1
           ∧ (mk_match_result ms t u).match_obj = none)) := by
  refine ⟨?_, ?_, ?_⟩
  · intro url_list resp time out h
    unfold request_gsb_api at h
    cases hrun : run_batches resp time (chunks url_list 500) 0 with
    | error e => rw [hrun] at h; exact absurd h (by simp)
    | ok rows =>
      rw [hrun] at h
      obtain rfl := (Except.ok.inj h).symm
      have hlen := run_batches_ok_length resp time _ 0 rows hrun
      simp only [hlen]
      have hflat := chunks_flatten 500 (by omega) url_list
      calc ((chunks url_list 500).map List.length).sum
          = (chunks url_list 500).flatten.length := (List.length_flatten _).symm
        _ = url_list.length := by rw [hflat]
  · intro batch ms t i hi
    unfold process_batch
    rw [List.getD_eq_getElem _ _ (by simpa using hi), List.getElem_map,
      List.getD_eq_getElem _ _ hi]
  · intro ms t u
    refine ⟨?_, ?_, ?_, ?_⟩
    · unfold mk_match_result
      cases ms.find? (fun m => m.threatUrl == some u) <;> rfl
    · unfold mk_match_result
      cases ms.find? (fun m => m.threatUrl == some u) <;> rfl
    · intro hex
      cases hf : ms.find? (fun m => m.threatUrl == some u) with
      | none =>
        exfalso
        rw [List.find?_eq_none] at hf
        obtain ⟨m, hm, hurl⟩ := hex
        exact hf m hm (by simp [hurl])
      | some m =>
        obtain ⟨hp, l1, l2, heq, hall⟩ := find?_eq_some_decomp hf
        have hobj : (mk_match_result ms t u).label = 0
            ∧ (mk_match_result ms t u).match_obj = some m := by
          unfold mk_match_result
          rw [hf]
          exact ⟨rfl, rfl⟩
        refine ⟨hobj.1, m, l1, l2, hobj.2, heq, by simpa using hp, ?_⟩
        intro m2 hm2
        have := hall m2 hm2
        simpa using this
    · intro hnone
      have hf : ms.find? (fun m => m.threatUrl == some u) = none := by
        rw [List.find?_eq_none]
        intro m hm
        simp [hnone m hm]
      unfold mk_match_result
      rw [hf]
      exact ⟨rfl, rfl⟩

/-- C2 witness: the theorem applied to the batch x.com, y.com with a
response matching only x.com. -/
theorem c2_one_result_per_url_witness :
    (GsbResultDF.mk gsb_result_cols
        [⟨"x.com", some ⟨some "x.com", "M"⟩, "M", "t", 0⟩,
         ⟨"y.com", none, "{}", "t", 1⟩]).rows.length = 2
    ∧ (mk_match_result [⟨some "x.com", "M"⟩] "t" "x.com").label = 0
    ∧ (mk_match_result [⟨some "x.com", "M"⟩] "t" "y.com").label = 1 := by
  refine ⟨?_, ?_, ?_⟩
  · exact c2_one_result_per_url.1 ["x.com", "y.com"]
      (fun _ => .success 200 (some [⟨some "x.com", "M"⟩])) (fun _ => "t") _
      (by simp [request_gsb_api, chunks, run_batches, process_batch,
        mk_match_result, List.find?])
  · exact ((c2_one_result_per_url.2.2 [⟨some "x.com", "M"⟩] "t" "x.com").2.2.1
      ⟨⟨some "x.com", "M"⟩, by simp, rfl⟩).1
  · exact ((c2_one_result_per_url.2.2 [⟨some "x.com", "M"⟩] "t" "y.com").2.2.2
      (by decide)).1

/-! ## C7: failure handling of the batch client -/

lemma run_batches_error_iff (resp : Nat → HttpResponse)
    (time : Nat → String) :
    ∀ (bs : List (List String)) (i : Nat),
      run_batches resp time bs i = .error () ↔
        ∃ k < bs.length, raisesOn (resp (i + k)) := by
  intro bs
  induction bs with
  | nil =>
    intro i
    simp [run_batches]
  | cons b bs ih =>
    intro i
    simp only [run_batches]
    cases hr : resp i with
    | failure =>
      simp only [List.length_cons]
      exact ⟨fun _ => ⟨0, by omega, by simp [raisesOn, hr]⟩, fun _ => by trivial⟩
    | success st body =>
      cases body with
      | none =>
        simp only [List.length_cons]
        exact ⟨fun _ => ⟨0, by omega, by simp [raisesOn, hr]⟩, fun _ => by trivial⟩
      | some ms =>
        cases hrec : run_batches resp time bs (i + 1) with
        | error e =>
          obtain rfl : e = () := rfl
          simp only [List.length_cons]
          constructor
          · intro _
            obtain ⟨k, hk, hrs⟩ := (ih (i + 1)).mp hrec
            refine ⟨k + 1, by omega, ?_⟩
            have harith : i + (k + 1) = i + 1 + k := by omega
            rw [harith]
            exact hrs
          · intro _
            trivial
        | ok rest =>
          simp only [List.length_cons]
          constructor
          · intro h
            exact absurd h (by simp)
          · intro h
            obtain ⟨k, hk, hrs⟩ := h
            match k with
            | 0 =>
              rw [Nat.add_zero] at hrs
              rcases hrs with h1 | ⟨st2, h2⟩
              · rw [hr] at h1
                exact absurd h1 (by simp)
              · rw [hr] at h2
                simp at h2
            | k + 1 =>
              have harith : i + (k + 1) = i + 1 + k := by omega
              rw [harith] at hrs
              have : run_batches resp time bs (i + 1) = .error () :=
                (ih (i + 1)).mpr ⟨k, by omega, hrs⟩
              rw [hrec] at this
              exact absurd this (by simp)

/-- C7 counterexample: the claim states that a non-2xx response is
never silently converted into per-url results.  With a single-url batch
answered by HTTP status 400 whose JSON body has no matches key, the
source ignores the status code, raises no error, and labels the url as
unmatched. -/
theorem c7_counterexample :
    request_gsb_api ["x.com"] (fun _ => .success 400 (some []))
      (fun _ => "t") =
      .ok ⟨gsb_result_cols, [⟨"x.com", none, "{}", "t", 1⟩]⟩ := by
  simp [request_gsb_api, chunks, run_batches, process_batch,
    mk_match_result, List.find?]

/-- C7 amended: a batch verification call fails exactly when some batch
receives a network failure or a response body that is not JSON; any
such failure aborts the whole call, discarding every batch (no retry,
no partial-batch result); conversely, whenever every consulted response
body parses as JSON the call returns a result table, regardless of the
HTTP status codes — a non-2xx status with a JSON body is not detected
as a failure. -/
theorem c7_amended_failure_policy (url_list : List String)
    (resp : Nat → HttpResponse) (time : Nat → String) :
    (request_gsb_api url_list resp time = .error () ↔
      ∃ k < (chunks url_list 500).length, raisesOn (resp k))
    ∧ ((∀ k < (chunks url_list 500).length, ¬ raisesOn (resp k)) →
      ∃ out, request_gsb_api url_list resp time = .ok out) := by
  have hiff : request_gsb_api url_list resp time = .error () ↔
      run_batches resp time (chunks url_list 500) 0 = .error () := by
    unfold request_gsb_api
    cases hrun : run_batches resp time (chunks url_list 500) 0 with
    | error e =>
      obtain rfl : e = () := rfl
      simp
    | ok rows => simp
  have hmain : request_gsb_api url_list resp time = .error () ↔
      ∃ k < (chunks url_list 500).length, raisesOn (resp k) := by
    rw [hiff, run_batches_error_iff resp time (chunks url_list 500) 0]
    constructor
    · rintro ⟨k, hk, hrs⟩
      exact ⟨k, hk, by simpa using hrs⟩
    · rintro ⟨k, hk, hrs⟩
      exact ⟨k, hk, by simpa using hrs⟩
  refine ⟨hmain, ?_⟩
  intro hall
  cases hrun : request_gsb_api url_list resp time with
  | error e =>
    obtain rfl : e = () := rfl
    obtain ⟨k, hk, hrs⟩ := hmain.mp hrun
    exact absurd hrs (hall k hk)
  | ok out => exact ⟨out, rfl⟩

/-- C7 witness: the amended theorem applied to a single-url list with a
network failure on its only batch. -/
theorem c7_amended_failure_policy_witness :
    request_gsb_api ["a.com"] (fun _ => HttpResponse.failure)
      (fun _ => "t") = .error () := by
  refine (c7_amended_failure_policy ["a.com"] (fun _ => HttpResponse.failure)
      (fun _ => "t")).1.mpr ⟨0, ?_, Or.inl rfl⟩
  simp [chunks]

/-! ## C4: correlation of results with origin metadata -/

/-- C4 counterexample: the claim states that a UrlRecord with no
corresponding MatchResult is still emitted with empty verification
fields.  With one UrlRecord and an empty response table, the left join
keeps the response side, so the output is empty: the UrlRecord is
dropped, not emitted. -/
theorem c4_counterexample :
    write_analyzed_urls_to_csv [⟨"a.com", "t1", "p1"⟩] [] = []
    ∧ (write_analyzed_urls_to_csv [⟨"a.com", "t1", "p1"⟩] []).length = 0 := by
  constructor
  · rfl
  · rfl

/-- C4 amended: the correlator keeps every MatchResult and emits one
ledger row per pairing, dropping unmatched UrlRecords.  In order: every
output row originates from some MatchResult (carrying its payload,
request time and label); a MatchResult whose trimmed url matches no
UrlRecord is still emitted with its discover_time and pulled_time
fields empty; every pairing of a MatchResult with a UrlRecord of equal
trimmed url is emitted as a ledger row with that origin metadata; the
output holds exactly one row per pairing — its length is the sum over
the MatchResults of the number of matching UrlRecords, counting one
for a MatchResult with none, so every MatchResult is kept; and an
empty response table yields an empty output, whatever UrlRecords were
discovered — a UrlRecord with no corresponding MatchResult is
dropped. -/
theorem c4_amended_correlator (req : List UrlRecord)
    (res : List MatchResult) :
    (∀ row ∈ write_analyzed_urls_to_csv req res,
       ∃ r ∈ res, row.url = pyStrip r.request_url
         ∧ row.match_json_obj = r.match_json_obj
         ∧ row.request_time = r.request_time
         ∧ row.label = r.label)
    ∧ (∀ r ∈ res, (∀ q ∈ req, pyStrip q.url ≠ pyStrip r.request_url) →
       (⟨pyStrip r.request_url, r.match_json_obj, "", "", r.request_time,
          r.label⟩ : LedgerRow) ∈ write_analyzed_urls_to_csv req res)
    ∧ (∀ r ∈ res, ∀ q ∈ req, pyStrip q.url = pyStrip r.request_url →
       (⟨pyStrip r.request_url, r.match_json_obj, q.discover_time,
          q.pulled_time, r.request_time, r.label⟩ : LedgerRow) ∈
         write_analyzed_urls_to_csv req res)
    ∧ (write_analyzed_urls_to_csv req res).length =
        (res.map (fun r => max (req.filter (fun q =>
          pyStrip q.url == pyStrip r.request_url)).length 1)).sum
    ∧ (res = [] → write_analyzed_urls_to_csv req res = []) := by
  refine ⟨?_, ?_, ?_, ?_, ?_⟩
  · intro row hrow
    unfold write_analyzed_urls_to_csv at hrow
    obtain ⟨r, hr, hmem⟩ := List.mem_flatMap.mp hrow
    refine ⟨r, hr, ?_⟩
    cases hfil : req.filter (fun q => pyStrip q.url == pyStrip r.request_url) with
    | nil =>
      rw [hfil] at hmem
      simp only [List.mem_singleton] at hmem
      subst hmem
      exact ⟨rfl, rfl, rfl, rfl⟩
    | cons q qs =>
      rw [hfil] at hmem
      obtain ⟨q2, _, hq2⟩ := List.mem_map.mp hmem
      subst hq2
      exact ⟨rfl, rfl, rfl, rfl⟩
  · intro r hr hnone
    unfold write_analyzed_urls_to_csv
    refine List.mem_flatMap.mpr ⟨r, hr, ?_⟩
    have hfil : req.filter (fun q => pyStrip q.url == pyStrip r.request_url) = [] := by
      rw [List.filter_eq_nil_iff]
      intro q hq
      simp [hnone q hq]
    rw [hfil]
    simp
  · intro r hr q hq hurl
    unfold write_analyzed_urls_to_csv
    refine List.mem_flatMap.mpr ⟨r, hr, ?_⟩
    have hqin : q ∈ req.filter (fun q => pyStrip q.url == pyStrip r.request_url) :=
      List.mem_filter.mpr ⟨hq, by simp [hurl]⟩
    cases hfil : req.filter (fun q => pyStrip q.url == pyStrip r.request_url) with
    | nil =>
      rw [hfil] at hqin
      exact absurd hqin (by simp)
    | cons q0 qs =>
      rw [hfil] at hqin
      exact List.mem_map.mpr ⟨q, hqin, rfl⟩
  · unfold write_analyzed_urls_to_csv
    rw [List.length_flatMap]
    congr 1
    apply List.map_congr_left
    intro r _
    simp only [Function.comp_apply]
    cases hfil : req.filter (fun q => pyStrip q.url == pyStrip r.request_url) with
    | nil => simp
    | cons q0 qs =>
      simp only [List.length_map, List.length_cons]
      omega
  · intro h
    subst h
    rfl

/-- C4 witness: the amended theorem applied to one UrlRecord for a.com
and one MatchResult for b.com; the unmatched MatchResult is emitted
with empty origin fields, and a matching pair for c.com is emitted as
one reconciled row. -/
theorem c4_amended_correlator_witness :
    ((⟨"b.com", "{}", "", "", "rt", 1⟩ : LedgerRow) ∈
      write_analyzed_urls_to_csv [⟨"a.com", "t1", "p1"⟩]
        [⟨"b.com", none, "{}", "rt", 1⟩])
    ∧ ((⟨"c.com", "{}", "t1", "p1", "rt", 1⟩ : LedgerRow) ∈
      write_analyzed_urls_to_csv [⟨"c.com", "t1", "p1"⟩]
        [⟨"c.com", none, "{}", "rt", 1⟩])
    ∧ (write_analyzed_urls_to_csv [⟨"c.com", "t1", "p1"⟩]
        [⟨"c.com", none, "{}", "rt", 1⟩]).length = 1 := by
  refine ⟨?_, ?_, ?_⟩
  · have h := (c4_amended_correlator [⟨"a.com", "t1", "p1"⟩]
        [⟨"b.com", none, "{}", "rt", 1⟩]).2.1
      ⟨"b.com", none, "{}", "rt", 1⟩ (by decide) (by decide)
    simp at h
    exact h
  · have h := (c4_amended_correlator [⟨"c.com", "t1", "p1"⟩]
        [⟨"c.com", none, "{}", "rt", 1⟩]).2.2.1
      ⟨"c.com", none, "{}", "rt", 1⟩ (by decide)
      ⟨"c.com", "t1", "p1"⟩ (by decide) (by decide)
    simp at h
    exact h
  · have h := (c4_amended_correlator [⟨"c.com", "t1", "p1"⟩]
        [⟨"c.com", none, "{}", "rt", 1⟩]).2.2.2.1
    simp at h
    exact h

/-! ## C5: the header is written exactly once per store lifetime -/

lemma headerCount_data_map (rows : List (List String)) :
    (rows.map CsvLine.data).countP (fun l => match l with
      | .header _ => true
      | .data _ => false) = 0 := by
  induction rows with
  | nil => rfl
  | cons r rows ih => simp [List.countP_cons, ih]

lemma headerCount_append_le (store : CsvStore) (cols : List String)
    (rows : List (List String)) :
    headerCount (append_csv store cols rows) ≤ max 1 (headerCount store) := by
  cases store with
  | none =>
    unfold append_csv headerCount
    simp [List.countP_append, headerCount_data_map]
  | some ls =>
    cases ls with
    | nil =>
      unfold append_csv headerCount
      simp [List.countP_append, headerCount_data_map]
    | cons a ls =>
      unfold append_csv headerCount
      simp only [Option.getD_some, Option.isNone_some, List.isEmpty_cons,
        Bool.false_or, if_neg (by simp : ¬ (false = true)),
        List.countP_append, headerCount_data_map]
      simp [List.countP_append, headerCount_data_map]

/-- C5: the header is written exactly when the store does not exist or
is empty (first conjunct: in that case the appended content starts with
the header); an append to an existing non-empty store writes only the
data rows (second conjunct); and over any sequence of appends, starting
from a store with at most one header line — in particular from a
non-existent store — the store never holds more than one header line,
across any number of process restarts (the decision reads only the
durable store, never process state). -/
theorem c5_header_once :
    (∀ (store : CsvStore) (cols : List String) (rows : List (List String)),
       ((store = none ∨ store.getD [] = []) →
         append_csv store cols rows =
           some (store.getD [] ++ [CsvLine.header cols]
             ++ rows.map CsvLine.data))
       ∧ ((∃ ls, store = some ls ∧ ls ≠ []) →
         append_csv store cols rows =
           some (store.getD [] ++ rows.map CsvLine.data)))
    ∧ (∀ (ops : List (List String × List (List String))) (s0 : CsvStore),
       headerCount s0 ≤ 1 →
       headerCount (ops.foldl (fun s op => append_csv s op.1 op.2) s0) ≤ 1) := by
  constructor
  · intro store cols rows
    constructor
    · intro h
      unfold append_csv
      rcases h with h | h
      · subst h
        simp
      · cases store with
        | none => simp
        | some ls =>
          simp only [Option.getD_some] at h
          subst h
          simp
    · intro h
      obtain ⟨ls, rfl, hne⟩ := h
      unfold append_csv
      have : (Option.some ls).isNone || ls.isEmpty = false := by
        simp [List.isEmpty_iff, hne]
      simp only [Option.getD_some, this, Bool.false_eq_true, if_neg,
        List.append_nil]
      rw [if_neg (by simp [List.isEmpty_iff, hne])]
      simp
  · intro ops
    induction ops with
    | nil => intro s0 h; simpa using h
    | cons op ops ih =>
      intro s0 h
      simp only [List.foldl_cons]
      apply ih
      have := headerCount_append_le s0 op.1 op.2
      omega
/-- C5 witness: the theorem applied to a first write on a non-existent
store and to a two-append sequence starting from a non-existent
store. -/
theorem c5_header_once_witness :
    append_csv none ["c"] [["v"]] =
      some [CsvLine.header ["c"], CsvLine.data ["v"]]
    ∧ headerCount ([(["c"], [["v"]]), (["c"], [["w"]])].foldl
        (fun s op => append_csv s op.1 op.2) none) ≤ 1 := by
  constructor
  · have h := (c5_header_once.1 none ["c"] [["v"]]).1 (Or.inl rfl)
    simpa using h
  · exact c5_header_once.2 [(["c"], [["v"]]), (["c"], [["w"]])] none
      (by decide)

/-! ## C8: refresh failure handling of the poll loop -/

/-- C8 counterexample: the claim states that a failing feed refresh is
logged and the loop proceeds to sleep without crashing.  The git pull
is not guarded by any exception handler, so a failing refresh raises
out of the loop and the process crashes. -/
theorem c8_counterexample :
    cycle ⟨["url"], []⟩ ⟨false, none, true, true⟩ = .crash ⟨["url"], []⟩ := by
  rfl

/-- C8 amended: a failing git pull raises and crashes the process with
the old baseline still in memory; when the pull succeeds but the feed
file is missing, the loop logs, keeps the old previous snapshot,
attempts no diff, does not crash — and skips the sleep, immediately
starting the next cycle. -/
theorem c8_amended_refresh_failure (prev_df : DataFrame) (env : CycleEnv) :
    (env.pullOk = false → cycle prev_df env = .crash prev_df)
    ∧ (env.pullOk = true → env.feed = none →
        cycle prev_df env = .cont prev_df none false) := by
  constructor
  · intro h
    unfold cycle
    rw [if_pos h]
  · intro h hf
    unfold cycle
    rw [if_neg (by simp [h]), hf]

/-- C8 witness: the amended theorem applied to a concrete environment
with a failing pull and to one with a successful pull but missing feed
file. -/
theorem c8_amended_refresh_failure_witness :
    cycle ⟨["url"], []⟩ ⟨false, some ⟨["url"], []⟩, true, true⟩ =
      .crash ⟨["url"], []⟩
    ∧ cycle ⟨["url"], []⟩ ⟨true, none, true, true⟩ =
      .cont ⟨["url"], []⟩ none false := by
  constructor
  · exact (c8_amended_refresh_failure ⟨["url"], []⟩
      ⟨false, some ⟨["url"], []⟩, true, true⟩).1 rfl
  · exact (c8_amended_refresh_failure ⟨["url"], []⟩
      ⟨true, none, true, true⟩).2 rfl rfl

/-! ## C9: at-most-once discovery across cycles -/

lemma get_new_entries_rows_not_in_prev (prev_df act_df d : DataFrame)
    (h : get_new_entries prev_df act_df = some d) :
    ∀ r ∈ d.rows, r ∉ prev_df.rows.map trimRow := by
  unfold get_new_entries at h
  by_cases hcond : ∀ c ∈ prev_df.cols, c ∈ act_df.cols
  · rw [if_pos hcond] at h
    obtain rfl := (Option.some_inj.mp h).symm
    intro r hr
    exact not_contains_dedup_iff.mp (List.mem_filter.mp hr).2
  · rw [if_neg hcond] at h
    exact absurd h (by simp)

/-- C9 counterexample: the claim states that a row present in the
snapshot read at cycle k is never reported as new in any cycle after k.
Run three cycles from an empty baseline: cycle 1 reads a snapshot
holding row r, cycle 2 reads an empty snapshot, cycle 3 reads the row-r
snapshot again.  Row r, present in the snapshot read at cycle 1, is
reported as new again at cycle 3. -/
theorem c9_counterexample :
    runTrace ⟨["url"], []⟩
      [⟨true, some ⟨["url"], [["r"]]⟩, true, true⟩,
       ⟨true, some ⟨["url"], []⟩, true, true⟩,
       ⟨true, some ⟨["url"], [["r"]]⟩, true, true⟩] =
      [.cont ⟨["url"], [["r"]]⟩ (some ⟨["url"], [["r"]]⟩) true,
       .cont ⟨["url"], []⟩ (some ⟨["url"], []⟩) true,
       .cont ⟨["url"], [["r"]]⟩ (some ⟨["url"], [["r"]]⟩) true]
    ∧ ["r"] ∈ (DataFrame.mk ["url"] [["r"]]).rows := by
  constructor
  · decide
  · decide

/-- C9 amended: in every cycle in which the current snapshot is read
and diffed successfully, the in-memory baseline is advanced to that
snapshot whatever the outcome of the later persistence and verification
steps (even at the crash point of a failing ledger write, and for every
send outcome, which the source catches and only logs); consequently a
trimmed row of that snapshot is never among the rows the immediately
following cycle reports as new. -/
theorem c9_amended_baseline_advance (prev_df : DataFrame)
    (envA envB : CycleEnv) (S d : DataFrame)
    (hpull : envA.pullOk = true) (hfeed : envA.feed = some S)
    (hdiff : get_new_entries prev_df S = some d) :
    (cycle prev_df envA).mem = S
    ∧ (∀ next2 e s2, cycle S envB = .cont next2 (some e) s2 →
        ∀ r ∈ e.rows, r ∉ S.rows.map trimRow) := by
  constructor
  · unfold cycle
    rw [if_neg (by simp [hpull]), hfeed]
    dsimp only
    rw [hdiff]
    by_cases hd : d.rows.isEmpty
    · simp [hd, CycleOut.mem]
    · by_cases hw : envA.writeOk = false
      · simp [hd, hw, CycleOut.mem]
      · simp [hd, hw, CycleOut.mem]
  · intro next2 e s2 hc
    unfold cycle at hc
    by_cases hp : envB.pullOk = false
    · rw [if_pos hp] at hc
      exact absurd hc (by simp)
    · rw [if_neg hp] at hc
      cases hf : envB.feed with
      | none =>
        rw [hf] at hc
        simp only [CycleOut.cont.injEq] at hc
        exact absurd hc.2.1 (by simp)
      | some T =>
        rw [hf] at hc
        dsimp only at hc
        cases hd2 : get_new_entries S T with
        | none =>
          rw [hd2] at hc
          exact absurd hc (by simp)
        | some d2 =>
          rw [hd2] at hc
          have hrows := get_new_entries_rows_not_in_prev S T d2 hd2
          have he : e = d2 := by
            by_cases hde : d2.rows.isEmpty
            · simp only [hde, if_pos] at hc
              exact (Option.some_inj.mp (CycleOut.cont.injEq .. ▸ hc).2.1).symm
            · by_cases hwb : envB.writeOk = false
              · simp only [hde, hwb] at hc
                exact absurd hc (by simp)
              · simp only [hde, hwb] at hc
                exact (Option.some_inj.mp (CycleOut.cont.injEq .. ▸ hc).2.1).symm
          subst he
          exact hrows

/-- C9 witness: the amended theorem applied to a first cycle reading
the row-r snapshot from an empty baseline, and a second cycle reading a
two-row snapshot whose new row is not a trimmed row of the first
snapshot. -/
theorem c9_amended_baseline_advance_witness :
    (cycle ⟨["url"], []⟩ ⟨true, some ⟨["url"], [["r"]]⟩, true, true⟩).mem =
      ⟨["url"], [["r"]]⟩
    ∧ ["s"] ∉ (DataFrame.mk ["url"] [["r"]]).rows.map trimRow := by
  have h := c9_amended_baseline_advance ⟨["url"], []⟩
    ⟨true, some ⟨["url"], [["r"]]⟩, true, true⟩
    ⟨true, some ⟨["url"], [["r"], ["s"]]⟩, true, true⟩
    ⟨["url"], [["r"]]⟩ ⟨["url"], [["r"]]⟩ rfl rfl (by decide)
  refine ⟨h.1, ?_⟩
  exact h.2 ⟨["url"], [["r"], ["s"]]⟩ ⟨["url"], [["s"]]⟩ true (by decide)
    ["s"] (by decide)
